import Mathlib

/-!
Verification development for the fractal-explorer renderer
(src/fractalExplorer.cpp).

Modelling conventions:
* `double`/`float` values are modelled as exact rationals (`ℚ`); the
  transcendental library calls (`sin`, `atan2`, `powf`, `log`) are collected
  in a `TranscOps` record and kept abstract, so theorems quantify over every
  possible interpretation of them.  `fabs` is exact and is modelled by `|·|`.
* C `int` is modelled as `ℤ`.  The conversion `int → size_t` that occurs in
  `static_cast<int>(iterations) % palette.size()` is modelled explicitly as
  reduction modulo `2 ^ 64` (LP64 `size_t`), and the conversion of a channel
  value to `sf::Uint8` as truncation followed by reduction modulo `2 ^ 8`.
* The iteration `while` loop is given a fuel argument equal to
  `maxIterations` (the bound within which the loop provably returns);
  exhausted fuel (`none`) models divergence of the C++ loop.
* The pixel buffer is a total map from byte offsets to byte values;
  renderers thread it through explicit writes, `none` again modelling a
  diverging render.
* `adjustIterations` uses `log10`, modelled over `ℝ` with `Real.logb 10`.
-/

namespace FractalExplorer

/-- `sf::Color` with the three channels written by the renderer. -/
structure Color where
  r : ℕ
  g : ℕ
  b : ℕ
deriving DecidableEq, Repr

/-- `struct ReturnInfo` of the source.  Fields that the source leaves
uninitialized on an interior return are modelled as `0`; they are never read
on that path (the renderers read them only when `iteration ≠ -1`). -/
structure ReturnInfo where
  iteration : ℤ
  smoothIteration : ℚ
  stripeSum : ℚ
deriving DecidableEq, Repr

/-- `struct RenderState` of the source (the fields the render core reads). -/
structure RenderState where
  viewportX : ℚ := -0.5
  viewportY : ℚ := 0
  viewportSize : ℚ := 3
  maxIterations : ℤ := 128
  colorDensity : ℚ := 0.2
  showJulia : Bool := false
  juliaX : ℚ := -0.8
  juliaY : ℚ := 0.156
  colorScheme : ℕ := 0
  autoIterations : Bool := true
  fractalType : ℕ := 0
  stripes : Bool := true
  stripeFrequency : ℚ := 5
  stripeIntensity : ℚ := 10
  innerCalculation : Bool := false

/-- The transcendental library functions used by the engine, kept abstract:
any interpretation of them (in particular the exact real functions, or the
actual libm implementations) satisfies the theorems below. -/
structure TranscOps where
  sin : ℚ → ℚ
  atan2 : ℚ → ℚ → ℚ
  powf : ℚ → ℚ → ℚ
  log : ℚ → ℚ

/-- `constexpr double ESCAPE_RADIUS_SQUARED = 100.0 * 100.0`. -/
def ESCAPE_RADIUS_SQUARED : ℚ := 100 * 100

/-- `constexpr int PREVIEW_DOWNSCALE = 12`. -/
def PREVIEW_DOWNSCALE : ℕ := 12

/-- Classic blue-gold palette (`PALETTES[0]`). -/
def classicPalette : List Color :=
  [⟨66, 30, 15⟩, ⟨25, 7, 26⟩, ⟨9, 1, 47⟩,
   ⟨4, 4, 73⟩, ⟨0, 7, 100⟩, ⟨12, 44, 138⟩,
   ⟨24, 82, 177⟩, ⟨57, 125, 209⟩, ⟨134, 181, 229⟩,
   ⟨211, 236, 248⟩, ⟨241, 233, 191⟩, ⟨248, 201, 95⟩,
   ⟨255, 170, 0⟩, ⟨204, 128, 0⟩, ⟨153, 87, 0⟩]

/-- Fire palette (`PALETTES[1]`). -/
def firePalette : List Color :=
  [⟨0, 0, 0⟩, ⟨20, 0, 0⟩, ⟨40, 0, 0⟩,
   ⟨80, 0, 0⟩, ⟨120, 20, 0⟩, ⟨160, 40, 0⟩,
   ⟨200, 80, 0⟩, ⟨240, 120, 0⟩, ⟨255, 160, 0⟩,
   ⟨255, 200, 0⟩, ⟨255, 240, 40⟩, ⟨255, 255, 100⟩,
   ⟨255, 255, 170⟩, ⟨255, 255, 220⟩, ⟨255, 255, 255⟩]

/-- Grayscale palette (`PALETTES[2]`). -/
def grayscalePalette : List Color :=
  [⟨0, 0, 0⟩, ⟨32, 32, 32⟩, ⟨64, 64, 64⟩,
   ⟨96, 96, 96⟩, ⟨128, 128, 128⟩, ⟨160, 160, 160⟩,
   ⟨192, 192, 192⟩, ⟨224, 224, 224⟩, ⟨255, 255, 255⟩]

/-- Ocean depths palette (`PALETTES[3]`). -/
def oceanPalette : List Color :=
  [⟨3, 13, 30⟩, ⟨6, 26, 48⟩, ⟨9, 38, 67⟩,
   ⟨17, 55, 92⟩, ⟨25, 71, 116⟩, ⟨33, 88, 140⟩,
   ⟨41, 105, 165⟩, ⟨50, 138, 193⟩, ⟨64, 174, 224⟩,
   ⟨110, 197, 233⟩, ⟨158, 218, 241⟩, ⟨198, 236, 248⟩,
   ⟨214, 249, 255⟩, ⟨225, 252, 255⟩, ⟨240, 255, 255⟩]

/-- Arctic palette (`PALETTES[4]`). -/
def arcticPalette : List Color :=
  [⟨15, 20, 40⟩, ⟨20, 30, 65⟩, ⟨30, 40, 90⟩,
   ⟨40, 60, 120⟩, ⟨65, 90, 150⟩, ⟨95, 130, 180⟩,
   ⟨135, 175, 205⟩, ⟨175, 205, 225⟩, ⟨200, 225, 240⟩,
   ⟨220, 235, 245⟩, ⟨230, 243, 250⟩, ⟨240, 250, 253⟩,
   ⟨245, 253, 255⟩, ⟨250, 255, 255⟩, ⟨255, 255, 255⟩]

/-- `const std::vector<std::vector<sf::Color>> PALETTES`. -/
def PALETTES : List (List Color) :=
  [classicPalette, firePalette, grayscalePalette, oceanPalette, arcticPalette]

/-- Truncation toward zero, the semantics of C++ `static_cast` from a
floating-point value to an integer type (for in-range values). -/
def ratTrunc (q : ℚ) : ℤ := if q < 0 then ⌈q⌉ else ⌊q⌋

/-- Conversion of a floating-point channel value to `sf::Uint8`:
truncation, reduced modulo `2 ^ 8`.  All values actually produced lie in
`[0, 255]`, where this is plain truncation. -/
def toUint8 (q : ℚ) : ℕ := ((ratTrunc q) % (2 ^ 8 : ℤ)).toNat

/-- `interpolateColors` of the source: per-channel linear interpolation,
truncated to integer channel values. -/
def interpolateColors (c1 c2 : Color) (factor : ℚ) : Color :=
  ⟨toUint8 ((c1.r : ℚ) + factor * ((c2.r : ℚ) - (c1.r : ℚ))),
   toUint8 ((c1.g : ℚ) + factor * ((c2.g : ℚ) - (c1.g : ℚ))),
   toUint8 ((c1.b : ℚ) + factor * ((c2.b : ℚ) - (c1.b : ℚ)))⟩

/-- The color scalar `iterations` computed by both renderers from a
non-interior result: `stripeIntensity * (stripeSum / iteration)` in stripe
mode, `smoothIteration * colorDensity` otherwise. -/
def colorScalar (stripes : Bool) (stripeIntensity colorDensity : ℚ)
    (info : ReturnInfo) : ℚ :=
  if stripes then stripeIntensity * (info.stripeSum / (info.iteration : ℚ))
  else info.smoothIteration * colorDensity

/-- The color computation shared by `renderFractalRegion` and
`renderPreview` (source lines 207–223 and 250–266): the interior sentinel
maps to black, otherwise `int index = static_cast<int>(iterations) %
palette.size()` (the `int` operand is converted to `size_t`, i.e. reduced
modulo `2 ^ 64`, before `%`), `fract = iterations - floor(iterations)`, and
linear interpolation between the two adjacent palette entries. -/
def mapColor (palette : List Color) (stripes : Bool)
    (stripeIntensity colorDensity : ℚ) (info : ReturnInfo) : Color :=
  if info.iteration = -1 then ⟨0, 0, 0⟩
  else
    let iterations := colorScalar stripes stripeIntensity colorDensity info
    let index : ℕ := ((ratTrunc iterations) % (2 ^ 64 : ℤ)).toNat % palette.length
    let fract : ℚ := iterations - ⌊iterations⌋
    interpolateColors (palette.getD index ⟨0, 0, 0⟩)
      (palette.getD ((index + 1) % palette.length) ⟨0, 0, 0⟩) fract

/-- The palette selected by the renderers:
`PALETTES[state.colorScheme % PALETTES.size()]`. -/
def paletteOf (colorScheme : ℕ) : List Color :=
  PALETTES.getD (colorScheme % PALETTES.length) []

/-- The main iteration `while` loop of `calculateFractal` (source lines
141–161).  `fuel` bounds the number of remaining loop passes; `none` models
a loop that does not return within `fuel` passes. -/
def calcLoop (T : TranscOps) (cr_actual ci_actual : ℚ) (maxIter : ℤ)
    (fractalType : ℕ) (stripes : Bool) (stripeFrequency : ℚ)
    (innerCalculation : Bool) :
    ℕ → ℤ → ℚ → ℚ → ℚ → ℚ → ℚ → Option ReturnInfo
  | 0, i, _zr, _zi, zr2, zi2, stripeSum =>
    if zr2 + zi2 < ESCAPE_RADIUS_SQUARED then none
    else some ⟨i, (i : ℚ) + 1 - T.log (T.log (zr2 + zi2) / 2) / T.log 2, stripeSum⟩
  | fuel + 1, i, zr, zi, zr2, zi2, stripeSum =>
    if zr2 + zi2 < ESCAPE_RADIUS_SQUARED then
      let zi' := (if fractalType = 0 then 2 * zr * zi else 2 * |zr * zi|) + ci_actual
      let zr' := zr2 - zi2 + cr_actual
      let zr2' := zr' * zr'
      let zi2' := zi' * zi'
      let stripeSum' :=
        if stripes then
          stripeSum + T.powf (T.sin (T.atan2 zi' zr' * stripeFrequency)) 2
        else stripeSum
      if i + 1 = maxIter then
        if innerCalculation then
          some ⟨i + 1, (i : ℚ) + 1 + 1 - T.log (T.log (zr2' + zi2') / 2) / T.log 2,
                stripeSum'⟩
        else some ⟨-1, 0, 0⟩
      else calcLoop T cr_actual ci_actual maxIter fractalType stripes
        stripeFrequency innerCalculation fuel (i + 1) zr' zi' zr2' zi2' stripeSum'
    else some ⟨i, (i : ℚ) + 1 - T.log (T.log (zr2 + zi2) / 2) / T.log 2, stripeSum⟩

/-- `calculateFractal` of the source: setup, early-bailout tests for the
Mandelbrot cardioid and period-2 bulb, then the main loop run with fuel
`maxIter.toNat`. -/
def calculateFractal (T : TranscOps) (cr ci jr ji : ℚ) (maxIter : ℤ)
    (isJulia : Bool) (fractalType : ℕ) (stripes : Bool) (stripeFrequency : ℚ)
    (innerCalculation : Bool) : Option ReturnInfo :=
  let zr : ℚ := if isJulia then cr else 0
  let zi : ℚ := if isJulia then ci else 0
  let cr_actual : ℚ := if isJulia then jr else cr
  let ci_actual : ℚ := if isJulia then ji else ci
  let q : ℚ := (cr - 0.25) * (cr - 0.25) + ci * ci
  if innerCalculation = true ∧ isJulia = false ∧ fractalType = 0 ∧
      (q * (q + (cr - 0.25)) < 0.25 * (ci * ci) ∨
       (cr + 1) * (cr + 1) + ci * ci < 0.0625) then
    some ⟨-1, 0, 0⟩
  else
    calcLoop T cr_actual ci_actual maxIter fractalType stripes stripeFrequency
      innerCalculation maxIter.toNat 0 zr zi (zr * zr) (zi * zi) 0

/-- The caller-owned RGBA pixel buffer, as a total map from byte offsets to
byte values. -/
def Buffer : Type := ℕ → ℕ

/-- A single byte store `pixels[i] = v`. -/
def bufWrite (buf : Buffer) (i : ℕ) (v : ℕ) : Buffer :=
  fun j => if j = i then v else buf j

/-- The four byte stores both renderers perform for one pixel:
`pixels[pixelIndex] = color.r; … ; pixels[pixelIndex + 3] = 255`. -/
def writePixel (buf : Buffer) (pixelIndex : ℕ) (c : Color) : Buffer :=
  bufWrite (bufWrite (bufWrite (bufWrite buf pixelIndex c.r)
    (pixelIndex + 1) c.g) (pixelIndex + 2) c.b) (pixelIndex + 3) 255

/-- The per-pixel computation both renderers perform (identical source text
in `renderFractalRegion` and `renderPreview`): pixel → complex mapping,
`calculateFractal`, then the color branch. -/
def computePixelColor (T : TranscOps) (state : RenderState) (width : ℕ)
    (y x : ℕ) : Option Color :=
  let pixelSize := state.viewportSize / (width : ℚ)
  let halfSize := state.viewportSize / 2
  let ci := state.viewportY - halfSize + (y : ℚ) * pixelSize
  let cr := state.viewportX - halfSize + (x : ℚ) * pixelSize
  (calculateFractal T cr ci state.juliaX state.juliaY state.maxIterations
      state.showJulia state.fractalType state.stripes state.stripeFrequency
      state.innerCalculation).map
    (mapColor (paletteOf state.colorScheme) state.stripes
      state.stripeIntensity state.colorDensity)

/-- The inner `for (int x = 0; x < width; x++)` loop of
`renderFractalRegion`, writing pixel `(y * width + x) * 4` for each column. -/
def renderRow (T : TranscOps) (state : RenderState) (width : ℕ) (y : ℕ) :
    ℕ → Buffer → Option Buffer
  | x, buf =>
    if h : x < width then
      match computePixelColor T state width y x with
      | none => none
      | some c =>
        renderRow T state width y (x + 1)
          (writePixel buf ((y * width + x) * 4) c)
    else some buf
termination_by x _ => width - x
decreasing_by simp_wf; omega

/-- The outer `for (int y = startY; y < endY; y++)` loop of
`renderFractalRegion`. -/
def regionLoop (T : TranscOps) (state : RenderState) (width endY : ℕ) :
    ℕ → Buffer → Option Buffer
  | y, buf =>
    if h : y < endY then
      (renderRow T state width y 0 buf).bind (regionLoop T state width endY (y + 1))
    else some buf
termination_by y _ => endY - y
decreasing_by simp_wf; omega

/-- `renderFractalRegion` of the source (the `height` parameter is unused in
its body, as in the source). -/
def renderFractalRegion (T : TranscOps) (state : RenderState)
    (startY endY width height : ℕ) (buf : Buffer) : Option Buffer :=
  regionLoop T state width endY startY buf

/-- The inner `for (int bx = 0; bx < downscale && x + bx < width; bx++)`
flood-fill loop of `renderPreview`. -/
def fillRow (c : Color) (width downscale y x : ℕ) : ℕ → Buffer → Buffer
  | bx, buf =>
    if h : bx < downscale ∧ x + bx < width then
      fillRow c width downscale y x (bx + 1)
        (writePixel buf ((y * width + (x + bx)) * 4) c)
    else buf
termination_by bx _ => downscale - bx
decreasing_by simp_wf; omega

/-- The `for (int by = 0; by < downscale && y + by < height; by++)`
flood-fill loop of `renderPreview`. -/
def fillBlock (c : Color) (width height downscale y x : ℕ) :
    ℕ → Buffer → Buffer
  | b1, buf =>
    if h : b1 < downscale ∧ y + b1 < height then
      fillBlock c width height downscale y x (b1 + 1)
        (fillRow c width downscale (y + b1) x 0 buf)
    else buf
termination_by b1 _ => downscale - b1
decreasing_by simp_wf; omega

/-- The inner `for (int x = 0; x < width; x += downscale)` loop of
`renderPreview`.  A zero `downscale` makes the C++ loop spin forever on the
same column; this is modelled by `none`. -/
def previewRow (T : TranscOps) (state : RenderState)
    (width height downscale y : ℕ) : ℕ → Buffer → Option Buffer
  | x, buf =>
    if h : x < width then
      if hd : downscale = 0 then none
      else
        match computePixelColor T state width y x with
        | none => none
        | some c =>
          previewRow T state width height downscale y (x + downscale)
            (fillBlock c width height downscale y x 0 buf)
    else some buf
termination_by x _ => width - x
decreasing_by simp_wf; omega

/-- The outer `for (int y = 0; y < height; y += downscale)` loop of
`renderPreview`. -/
def previewLoop (T : TranscOps) (state : RenderState)
    (width height downscale : ℕ) : ℕ → Buffer → Option Buffer
  | y, buf =>
    if h : y < height then
      if hd : downscale = 0 then none
      else
        (previewRow T state width height downscale y 0 buf).bind
          (previewLoop T state width height downscale (y + downscale))
    else some buf
termination_by y _ => height - y
decreasing_by simp_wf; omega

/-- `renderPreview` of the source. -/
def renderPreview (T : TranscOps) (state : RenderState)
    (width height downscale : ℕ) (buf : Buffer) : Option Buffer :=
  previewLoop T state width height downscale 0 buf

/-- The band loop of `renderFractal`: band `i` covers rows
`[i * linesPerThread, (i + 1) * linesPerThread)`, the last band absorbing
the remainder up to `height`.  The worker threads own disjoint row ranges of
the buffer, so the fork-join execution is modelled by sequential
composition of the bands. -/
def bandsLoop (T : TranscOps) (state : RenderState)
    (width height numThreads linesPerThread : ℕ) : ℕ → Buffer → Option Buffer
  | i, buf =>
    if h : i < numThreads then
      (renderFractalRegion T state (i * linesPerThread)
          (if i = numThreads - 1 then height else (i + 1) * linesPerThread)
          width height buf).bind
        (bandsLoop T state width height numThreads linesPerThread (i + 1))
    else some buf
termination_by i _ => numThreads - i
decreasing_by simp_wf; omega

/-- `renderFractal` of the source: preview path, or `numThreads` row bands
of `height / numThreads` rows each (`numThreads` models the runtime value
`NUM_THREADS`). -/
def renderFractal (T : TranscOps) (state : RenderState)
    (width height numThreads : ℕ) (usePreview : Bool) (buf : Buffer) :
    Option Buffer :=
  if usePreview then renderPreview T state width height PREVIEW_DOWNSCALE buf
  else bandsLoop T state width height numThreads (height / numThreads) 0 buf

/-- `adjustIterations` of the source, over exact reals:
`maxIterations = max(100, min(10000, trunc(100 * log10(1 + 3.0 / size))))`
when auto-iteration mode is on, unchanged otherwise. -/
noncomputable def adjustIterations (autoIterations : Bool) (viewportSize : ℚ)
    (maxIterations : ℤ) : ℤ :=
  if autoIterations then
    let zoomFactor : ℝ := 3.0 / (viewportSize : ℝ)
    let x : ℝ := 100 * Real.logb 10 (1 + zoomFactor)
    max 100 (min 10000 (if x < 0 then ⌈x⌉ else ⌊x⌋))
  else maxIterations

/-- Modelled from the spec (§4.6, §8): the adaptive iteration policy as the
spec words it, `clamp(floor(100 * log10(1 + zoom)), 100, 10000)` with
`zoom = 3.0 / size`; used to compare `adjustIterations` against the spec. -/
noncomputable def specAdaptiveIterations (viewportSize : ℚ) : ℤ :=
  max 100 (min ⌊(100 : ℝ) * Real.logb 10 (1 + 3.0 / (viewportSize : ℝ))⌋ 10000)

/-- Modelled from the spec (§4.2): the ColorMapper interpolation formula as
the spec words it, with floor-based index and modulus; used to compare
`mapColor` against the spec. -/
def specColorMap (palette : List Color) (t : ℚ) : Color :=
  let index : ℕ := ((⌊t⌋ : ℤ) % (palette.length : ℤ)).toNat
  let frac : ℚ := t - ⌊t⌋
  interpolateColors (palette.getD index ⟨0, 0, 0⟩)
    (palette.getD ((index + 1) % palette.length) ⟨0, 0, 0⟩) frac

/-- A result of the main loop with a non-negative iteration count carries an
iteration count at least as large as the loop counter it started from. -/
lemma calcLoop_le_iteration (T : TranscOps) (crA ciA : ℚ) (m : ℤ) (ft : ℕ)
    (st : Bool) (fr : ℚ) (inner : Bool) :
    ∀ (fuel : ℕ) (i : ℤ) (zr zi zr2 zi2 ss : ℚ) (r : ReturnInfo),
      calcLoop T crA ciA m ft st fr inner fuel i zr zi zr2 zi2 ss = some r →
      0 ≤ r.iteration → i ≤ r.iteration := by
  intro fuel
  induction fuel with
  | zero =>
    intro i zr zi zr2 zi2 ss r h hr
    rw [calcLoop] at h
    split at h
    · simp at h
    · cases h
      exact le_refl _
  | succ f ih =>
    intro i zr zi zr2 zi2 ss r h hr
    rw [calcLoop] at h
    split at h
    · dsimp only [] at h
      split at h
      · split at h
        · cases h
          exact (show i ≤ i + 1 by omega)
        · cases h
          exact absurd (show (0 : ℤ) ≤ -1 from hr) (by norm_num)
      · exact le_trans (show i ≤ i + 1 by omega) (ih _ _ _ _ _ _ r h hr)
    · cases h
      exact le_refl _

/-- Fuel-and-cap monotonicity of the main loop: a run that exits through the
escape test (iteration count below the cap) is reproduced verbatim by any
run with a larger cap and at least as much fuel. -/
lemma calcLoop_mono (T : TranscOps) (crA ciA : ℚ) (ft : ℕ) (st : Bool)
    (fr : ℚ) (inner : Bool) (m1 m2 : ℤ) (hm : m1 ≤ m2) :
    ∀ (fuel1 fuel2 : ℕ), fuel1 ≤ fuel2 →
    ∀ (i : ℤ) (zr zi zr2 zi2 ss : ℚ) (r : ReturnInfo),
      calcLoop T crA ciA m1 ft st fr inner fuel1 i zr zi zr2 zi2 ss = some r →
      0 ≤ r.iteration → r.iteration < m1 →
      calcLoop T crA ciA m2 ft st fr inner fuel2 i zr zi zr2 zi2 ss = some r := by
  intro fuel1
  induction fuel1 with
  | zero =>
    intro fuel2 hf i zr zi zr2 zi2 ss r h h0 hlt
    rw [calcLoop] at h
    split at h
    · simp at h
    · next hcond =>
      cases h
      cases fuel2 with
      | zero => rw [calcLoop]; rw [if_neg hcond]
      | succ f2 => rw [calcLoop]; rw [if_neg hcond]
  | succ f1 ih =>
    intro fuel2 hf i zr zi zr2 zi2 ss r h h0 hlt
    rw [calcLoop] at h
    split at h
    · next hcond =>
      dsimp only [] at h
      obtain ⟨f2, rfl⟩ : ∃ f2, fuel2 = f2 + 1 := ⟨fuel2 - 1, by omega⟩
      split at h
      · next hcap =>
        split at h
        · cases h
          exact absurd (show i + 1 < m1 from hlt) (by omega)
        · cases h
          exact absurd (show (0 : ℤ) ≤ -1 from h0) (by norm_num)
      · next hcap =>
        have hge := calcLoop_le_iteration T crA ciA m1 ft st fr inner
          f1 _ _ _ _ _ _ r h h0
        have hcap2 : ¬ (i + 1 = m2) := by omega
        rw [calcLoop]
        rw [if_pos hcond]
        dsimp only []
        rw [if_neg hcap2]
        exact ih f2 (by omega) _ _ _ _ _ _ r h h0 hlt
    · next hcond =>
      cases h
      cases fuel2 with
      | zero => rw [calcLoop]; rw [if_neg hcond]
      | succ f2 => rw [calcLoop]; rw [if_neg hcond]

/-- With fuel at least `m - i`, the main loop returns: every run exits
through the escape test or through the iteration cap. -/
lemma calcLoop_total (T : TranscOps) (crA ciA : ℚ) (m : ℤ) (ft : ℕ)
    (st : Bool) (fr : ℚ) (inner : Bool) :
    ∀ (fuel : ℕ) (i : ℤ), 0 ≤ i → i < m → (m - i).toNat ≤ fuel →
    ∀ (zr zi zr2 zi2 ss : ℚ),
      ∃ r, calcLoop T crA ciA m ft st fr inner fuel i zr zi zr2 zi2 ss = some r ∧
        (r.iteration = -1 ∨ (0 ≤ r.iteration ∧ r.iteration ≤ m)) := by
  intro fuel
  induction fuel with
  | zero =>
    intro i h0 hlt hfuel zr zi zr2 zi2 ss
    omega
  | succ f ih =>
    intro i h0 hlt hfuel zr zi zr2 zi2 ss
    rw [calcLoop]
    split
    · dsimp only []
      split
      · next hcap =>
        split
        · exact ⟨_, rfl, Or.inr ⟨show (0 : ℤ) ≤ i + 1 by omega, show i + 1 ≤ m by omega⟩⟩
        · exact ⟨_, rfl, Or.inl rfl⟩
      · next hcap =>
        exact ih (i + 1) (by omega) (by omega) (by omega) _ _ _ _ _
    · exact ⟨_, rfl, Or.inr ⟨h0, show i ≤ m by omega⟩⟩

/-- Started on the fixed point `z = 0` of the Standard Mandelbrot recurrence
at `c = 0`, the loop state stays at zero and the run ends at the cap with
the interior sentinel (inner-detail mode off). -/
lemma calcLoop_zero_orbit (T : TranscOps) (m : ℤ) (st : Bool) (fr : ℚ) :
    ∀ (fuel : ℕ) (i : ℤ), i < m → (m - i).toNat ≤ fuel →
    ∀ (ss : ℚ),
      calcLoop T 0 0 m 0 st fr false fuel i 0 0 0 0 ss = some ⟨-1, 0, 0⟩ := by
  intro fuel
  induction fuel with
  | zero =>
    intro i hlt hfuel ss
    omega
  | succ f ih =>
    intro i hlt hfuel ss
    rw [calcLoop]
    rw [if_pos (show (0 : ℚ) + 0 < ESCAPE_RADIUS_SQUARED by
      norm_num [ESCAPE_RADIUS_SQUARED])]
    norm_num
    all_goals intro hcap
    all_goals exact ih (i + 1) (by omega) (by omega) _

attribute [local semireducible] Rat.add Rat.mul Rat.sub Rat.inv Rat.ofScientific

/-- A concrete interpretation of the transcendental operations (identically
zero), used to instantiate theorems on concrete inputs. -/
def Tzero : TranscOps := ⟨fun _ => 0, fun _ _ => 0, fun _ _ => 0, fun _ => 0⟩

/-- Claim C7: for every sample point and parameter combination, if
`calculateFractal` with cap `m1` classifies the point as Escaped after
`i < m1` iterations, then for every cap `m2 ≥ m1` the same call with cap
`m2` yields the same classification and the same iteration count (indeed
the identical result record). -/
theorem calculateFractal_cap_monotone (T : TranscOps) (cr ci jr ji : ℚ)
    (m1 m2 : ℤ) (isJulia : Bool) (ft : ℕ) (st : Bool) (fr : ℚ) (inner : Bool)
    (r : ReturnInfo)
    (h : calculateFractal T cr ci jr ji m1 isJulia ft st fr inner = some r)
    (h0 : 0 ≤ r.iteration) (hlt : r.iteration < m1) (hm : m1 ≤ m2) :
    calculateFractal T cr ci jr ji m2 isJulia ft st fr inner = some r := by
  rw [calculateFractal] at h ⊢
  split at h
  · cases h
    exact absurd (show (0 : ℤ) ≤ -1 from h0) (by norm_num)
  · next hbail =>
    rw [if_neg hbail]
    exact calcLoop_mono T _ _ ft st fr inner m1 m2 hm m1.toNat m2.toNat
      (by omega) 0 _ _ _ _ _ r h h0 hlt

/-- Witness for C7: the point `c = (3, 0)` escapes after 3 iterations under
cap 100, and the run with cap 200 returns the identical result. -/
theorem calculateFractal_cap_monotone_witness :
    calculateFractal Tzero 3 0 0 0 100 false 0 false 0 false = some ⟨3, 4, 0⟩ ∧
    (0 : ℤ) ≤ 3 ∧ (3 : ℤ) < 100 ∧ (100 : ℤ) ≤ 200 ∧
    calculateFractal Tzero 3 0 0 0 200 false 0 false 0 false = some ⟨3, 4, 0⟩ :=
  ⟨by decide, by decide, by decide, by decide,
   calculateFractal_cap_monotone Tzero 3 0 0 0 100 200 false 0 false 0 false
     ⟨3, 4, 0⟩ (by decide) (by decide) (by decide) (by decide)⟩

/-- Claim C9: for every input with `maxIterations ∈ [100, 10000]` the main
iteration loop terminates within `maxIterations` loop passes (the run with
fuel `maxIterations` returns), exiting through the escape test or the
iteration cap. -/
theorem calculateFractal_terminates (T : TranscOps) (cr ci jr ji : ℚ)
    (m : ℤ) (isJulia : Bool) (ft : ℕ) (st : Bool) (fr : ℚ) (inner : Bool)
    (h100 : 100 ≤ m) (h10000 : m ≤ 10000) :
    ∃ r, calculateFractal T cr ci jr ji m isJulia ft st fr inner = some r ∧
      (r.iteration = -1 ∨ (0 ≤ r.iteration ∧ r.iteration ≤ m)) := by
  rw [calculateFractal]
  split
  · exact ⟨⟨-1, 0, 0⟩, rfl, Or.inl rfl⟩
  · exact calcLoop_total T _ _ m ft st fr inner m.toNat 0 le_rfl (by omega)
      (by omega) _ _ _ _ _

/-- Witness for C9 at `c = (2, 2)`, `maxIterations = 100`. -/
theorem calculateFractal_terminates_witness :
    (100 : ℤ) ≤ 100 ∧ (100 : ℤ) ≤ 10000 ∧
    ∃ r, calculateFractal Tzero 2 2 0 0 100 false 0 false 0 false = some r ∧
      (r.iteration = -1 ∨ (0 ≤ r.iteration ∧ r.iteration ≤ 100)) :=
  ⟨by decide, by decide,
   calculateFractal_terminates Tzero 2 2 0 0 100 false 0 false 0 false
     (by decide) (by decide)⟩

/-- Claim C8: the sample point `c = (0, 0)` in Mandelbrot mode with
Standard fractal type is classified Interior (sentinel `-1`) for every
`maxIterations ≥ 100`: with inner-calculation enabled the cardioid test
fires, and with it disabled the loop reaches the cap from the fixed
orbit `z = 0`. -/
theorem calculateFractal_origin_interior (T : TranscOps) (jr ji : ℚ)
    (m : ℤ) (st : Bool) (fr : ℚ) (inner : Bool) (hm : 100 ≤ m) :
    calculateFractal T 0 0 jr ji m false 0 st fr inner = some ⟨-1, 0, 0⟩ := by
  cases inner with
  | true =>
    rw [calculateFractal]
    rw [if_pos (by norm_num)]
  | false =>
    rw [calculateFractal]
    rw [if_neg (by norm_num)]
    have h := calcLoop_zero_orbit T m st fr m.toNat 0 (by omega) (by omega) 0
    simpa using h

/-- Witness for C8 at `maxIterations = 100`, inner-calculation off. -/
theorem calculateFractal_origin_interior_witness :
    (100 : ℤ) ≤ 100 ∧
    calculateFractal Tzero 0 0 0 0 100 false 0 false 0 false = some ⟨-1, 0, 0⟩ :=
  ⟨by decide, calculateFractal_origin_interior Tzero 0 0 100 false 0 false (by decide)⟩

/-- Claim C10: in Julia mode, a sample point with
`cr² + ci² ≥ ESCAPE_RADIUS_SQUARED` makes the loop body execute zero times,
yet `calculateFractal` returns iteration count `0` (not the interior
sentinel) with `stripeSum = 0`; in stripe mode both renderers then compute
the color scalar `stripeIntensity * (stripeSum / iteration)` with the zero
divisor `iteration = 0` (see `colorScalar` and `mapColor`). -/
theorem calculateFractal_julia_zero_iterations (T : TranscOps)
    (cr ci jr ji : ℚ) (m : ℤ) (ft : ℕ) (st : Bool) (fr : ℚ) (inner : Bool)
    (hesc : ESCAPE_RADIUS_SQUARED ≤ cr * cr + ci * ci) :
    ∃ r, calculateFractal T cr ci jr ji m true ft st fr inner = some r ∧
      r.iteration = 0 ∧ r.stripeSum = 0 := by
  rw [calculateFractal]
  rw [if_neg (by simp)]
  refine ⟨⟨0, ((0 : ℤ) : ℚ) + 1 - T.log (T.log
    ((if (true : Bool) = true then cr else 0) * (if (true : Bool) = true then cr else 0) +
     (if (true : Bool) = true then ci else 0) * (if (true : Bool) = true then ci else 0)) / 2) /
    T.log 2, 0⟩, ?_, rfl, rfl⟩
  have hcond : ¬ ((if (true : Bool) = true then cr else 0) * (if (true : Bool) = true then cr else 0) +
      (if (true : Bool) = true then ci else 0) * (if (true : Bool) = true then ci else 0) <
      ESCAPE_RADIUS_SQUARED) := by
    simpa using not_lt.mpr hesc
  cases m.toNat with
  | zero => rw [calcLoop]; rw [if_neg hcond]
  | succ f => rw [calcLoop]; rw [if_neg hcond]

/-- Witness for C10 at the Julia sample point `c = (200, 0)`. -/
theorem calculateFractal_julia_zero_iterations_witness :
    ESCAPE_RADIUS_SQUARED ≤ (200 : ℚ) * 200 + 0 * 0 ∧
    ∃ r, calculateFractal Tzero 200 0 (-0.8) 0.156 128 true 0 true 5 false = some r ∧
      r.iteration = 0 ∧ r.stripeSum = 0 :=
  ⟨by decide,
   calculateFractal_julia_zero_iterations Tzero 200 0 (-0.8) 0.156 128 0 true 5 false
     (by decide)⟩

/-- The fractional part `t - ⌊t⌋` used as interpolation factor lies in
`[0, 1)`. -/
lemma fract_bounds (t : ℚ) : 0 ≤ t - ⌊t⌋ ∧ t - ⌊t⌋ < 1 :=
  ⟨by linarith [Int.floor_le t], by linarith [Int.lt_floor_add_one t]⟩

/-- A pair of adjacent palette colors that agree on some channel being in
`[1, 255]` (and hence interpolate to a nonzero byte on that channel). -/
def pairSafe (c1 c2 : Color) : Prop :=
  (1 ≤ c1.r ∧ 1 ≤ c2.r ∧ c1.r ≤ 255 ∧ c2.r ≤ 255) ∨
  (1 ≤ c1.g ∧ 1 ≤ c2.g ∧ c1.g ≤ 255 ∧ c2.g ≤ 255) ∨
  (1 ≤ c1.b ∧ 1 ≤ c2.b ∧ c1.b ≤ 255 ∧ c2.b ≤ 255)

instance (c1 c2 : Color) : Decidable (pairSafe c1 c2) := by
  unfold pairSafe; infer_instance

/-- Every cyclically adjacent pair of palette entries is `pairSafe`. -/
def adjSafe (p : List Color) : Prop :=
  ∀ i, i < p.length →
    pairSafe (p.getD i ⟨0, 0, 0⟩) (p.getD ((i + 1) % p.length) ⟨0, 0, 0⟩)

instance (p : List Color) : Decidable (adjSafe p) := by
  unfold adjSafe; exact Nat.decidableBallLT _ _

/-- An interpolated channel between byte values that are both in `[1, 255]`
truncates to a nonzero byte for every factor in `[0, 1)`. -/
lemma toUint8_lerp_ne_zero (a b : ℕ) (f : ℚ) (h0 : 0 ≤ f) (h1 : f < 1)
    (ha1 : 1 ≤ a) (hb1 : 1 ≤ b) (ha2 : a ≤ 255) (hb2 : b ≤ 255) :
    toUint8 ((a : ℚ) + f * ((b : ℚ) - (a : ℚ))) ≠ 0 := by
  set v : ℚ := (a : ℚ) + f * ((b : ℚ) - (a : ℚ)) with hv
  have h1a : (1 : ℚ) ≤ (a : ℚ) := by exact_mod_cast ha1
  have h1b : (1 : ℚ) ≤ (b : ℚ) := by exact_mod_cast hb1
  have h2a : (a : ℚ) ≤ 255 := by exact_mod_cast ha2
  have h2b : (b : ℚ) ≤ 255 := by exact_mod_cast hb2
  have hvge : 1 ≤ v := by
    rcases le_total (a : ℚ) (b : ℚ) with hab | hba
    · nlinarith [mul_nonneg h0 (sub_nonneg.mpr hab)]
    · nlinarith [mul_le_of_le_one_left (sub_nonneg.mpr hba) h1.le]
  have hvle : v ≤ 255 := by
    rcases le_total (a : ℚ) (b : ℚ) with hab | hba
    · nlinarith [mul_le_of_le_one_left (sub_nonneg.mpr hab) h1.le]
    · nlinarith [mul_nonneg h0 (sub_nonneg.mpr hba)]
  have hfl1 : 1 ≤ ⌊v⌋ := Int.le_floor.mpr (by exact_mod_cast hvge)
  have hfl2 : ⌊v⌋ ≤ 255 := by
    have h := Int.floor_le_floor hvle
    simpa using h
  rw [toUint8, ratTrunc, if_neg (by linarith : ¬ v < 0)]
  rw [Int.emod_eq_of_lt (by omega) (by omega)]
  omega

/-- Interpolation between a `pairSafe` pair of colors never produces exact
black for a factor in `[0, 1)`. -/
lemma interpolateColors_ne_black (c1 c2 : Color) (f : ℚ) (h0 : 0 ≤ f)
    (h1 : f < 1) (hp : pairSafe c1 c2) :
    interpolateColors c1 c2 f ≠ ⟨0, 0, 0⟩ := by
  intro hc
  rcases hp with ⟨ha1, hb1, ha2, hb2⟩ | ⟨ha1, hb1, ha2, hb2⟩ | ⟨ha1, hb1, ha2, hb2⟩
  · exact toUint8_lerp_ne_zero _ _ f h0 h1 ha1 hb1 ha2 hb2 (congrArg Color.r hc)
  · exact toUint8_lerp_ne_zero _ _ f h0 h1 ha1 hb1 ha2 hb2 (congrArg Color.g hc)
  · exact toUint8_lerp_ne_zero _ _ f h0 h1 ha1 hb1 ha2 hb2 (congrArg Color.b hc)

/-- On a nonempty palette whose adjacent pairs are all `pairSafe`, the
non-interior branch of `mapColor` never produces exact black. -/
lemma mapColor_ne_black (p : List Color) (hlen : 0 < p.length)
    (hsafe : adjSafe p) (stripes : Bool) (sI cD : ℚ) (info : ReturnInfo)
    (hni : ¬ info.iteration = -1) :
    mapColor p stripes sI cD info ≠ ⟨0, 0, 0⟩ := by
  rw [mapColor, if_neg hni]
  exact interpolateColors_ne_black _ _ _
    (fract_bounds (colorScalar stripes sI cD info)).1
    (fract_bounds (colorScalar stripes sI cD info)).2
    (hsafe _ (Nat.mod_lt _ hlen))

/-- The possible values of `colorScheme % PALETTES.size()`. -/
lemma scheme_mod_cases (scheme : ℕ) :
    scheme % PALETTES.length = 0 ∨ scheme % PALETTES.length = 1 ∨
    scheme % PALETTES.length = 2 ∨ scheme % PALETTES.length = 3 ∨
    scheme % PALETTES.length = 4 := by
  have h5 : PALETTES.length = 5 := rfl
  rw [h5]
  have h : scheme % 5 < 5 := Nat.mod_lt scheme (by norm_num)
  omega

/-- Every selected palette is nonempty. -/
lemma paletteOf_length_pos (scheme : ℕ) : 0 < (paletteOf scheme).length := by
  rcases scheme_mod_cases scheme with h | h | h | h | h <;>
    rw [paletteOf, h] <;> decide

/-- All channels of every selected palette entry are at most 255. -/
lemma paletteOf_channels (scheme : ℕ) :
    ∀ i, i < (paletteOf scheme).length →
      ((paletteOf scheme).getD i ⟨0, 0, 0⟩).r ≤ 255 ∧
      ((paletteOf scheme).getD i ⟨0, 0, 0⟩).g ≤ 255 ∧
      ((paletteOf scheme).getD i ⟨0, 0, 0⟩).b ≤ 255 := by
  rcases scheme_mod_cases scheme with h | h | h | h | h <;>
    rw [paletteOf, h] <;> decide

/-- Claim C2 (amended): an Interior result without detail (sentinel `-1`)
maps to black `(0,0,0)` for every palette, and for the classic, ocean and
arctic palettes (`colorScheme % 5 ∈ {0, 3, 4}`) exact black is never
produced by the interpolation path taken for non-interior results; the fire
and grayscale palettes contain black themselves and their interpolation can
produce it. -/
theorem mapColor_black_reserved (scheme : ℕ) (stripes : Bool) (sI cD : ℚ)
    (info : ReturnInfo)
    (hscheme : scheme % PALETTES.length = 0 ∨ scheme % PALETTES.length = 3 ∨
      scheme % PALETTES.length = 4) :
    (info.iteration = -1 →
      mapColor (paletteOf scheme) stripes sI cD info = ⟨0, 0, 0⟩) ∧
    (info.iteration ≠ -1 →
      mapColor (paletteOf scheme) stripes sI cD info ≠ ⟨0, 0, 0⟩) := by
  constructor
  · intro h
    rw [mapColor, if_pos h]
  · intro h
    rcases hscheme with h' | h' | h'
    · rw [paletteOf, h']
      exact mapColor_ne_black _ (by decide) (by decide) _ _ _ _ h
    · rw [paletteOf, h']
      exact mapColor_ne_black _ (by decide) (by decide) _ _ _ _ h
    · rw [paletteOf, h']
      exact mapColor_ne_black _ (by decide) (by decide) _ _ _ _ h

set_option maxRecDepth 8000 in
/-- Counterexample to C2 as stated: with the fire palette
(`colorScheme = 1`), the interpolation path maps the Escaped result with
`smoothIteration = 0` (scalar `t = 0`) to exact black, although its
iteration count is not the interior sentinel. -/
theorem mapColor_black_counterexample :
    (⟨1, 0, 0⟩ : ReturnInfo).iteration ≠ -1 ∧
    mapColor (paletteOf 1) false 0 1 ⟨1, 0, 0⟩ = ⟨0, 0, 0⟩ :=
  ⟨by decide, by decide⟩

/-- Witness for the amended C2 on the classic palette. -/
theorem mapColor_black_reserved_witness :
    ((0 : ℕ) % PALETTES.length = 0 ∨ (0 : ℕ) % PALETTES.length = 3 ∨
      (0 : ℕ) % PALETTES.length = 4) ∧
    mapColor (paletteOf 0) false 0 1 ⟨2, 5, 0⟩ ≠ ⟨0, 0, 0⟩ :=
  ⟨Or.inl (by decide),
   (mapColor_black_reserved 0 false 0 1 ⟨2, 5, 0⟩ (Or.inl (by decide))).2
     (by decide)⟩

/-- A nonnegative byte value at most 255 passes through the `Uint8`
conversion unchanged. -/
lemma toUint8_natCast (n : ℕ) (h : n ≤ 255) : toUint8 (n : ℚ) = n := by
  rw [toUint8, ratTrunc, if_neg (not_lt.mpr (by positivity : (0 : ℚ) ≤ (n : ℚ)))]
  rw [Int.floor_natCast]
  rw [Int.emod_eq_of_lt (by omega) (by omega)]
  omega

/-- Interpolating with factor `0` returns the first color exactly (zero
blend error), provided its channels are bytes. -/
lemma interpolateColors_zero (c1 c2 : Color) (h1 : c1.r ≤ 255)
    (h2 : c1.g ≤ 255) (h3 : c1.b ≤ 255) : interpolateColors c1 c2 0 = c1 := by
  rw [interpolateColors]
  have e : ∀ x y : ℚ, x + 0 * (y - x) = x := by intro x y; ring
  rw [e, e, e, toUint8_natCast _ h1, toUint8_natCast _ h2, toUint8_natCast _ h3]

/-- Claim C4 (amended): for every non-interior result whose color scalar
`t` satisfies `0 ≤ t < 2^31` (the range on which the C++ `int` cast is
defined), the renderers' color computation agrees with the spec formula
`index = ⌊t⌋ mod length`, `frac = t - ⌊t⌋`, truncated linear interpolation;
in particular an exact integer `t` maps to `palette[t mod length]` with
zero blend error.  For negative `t` the code instead converts the truncated
scalar to `size_t`, yielding index `(trunc(t) + 2^64) mod length` — not the
floor-based index of the spec (see the counterexample). -/
theorem mapColor_matches_spec_nonneg (scheme : ℕ) (stripes : Bool)
    (sI cD : ℚ) (info : ReturnInfo) (hni : info.iteration ≠ -1)
    (h0 : 0 ≤ colorScalar stripes sI cD info)
    (hlt : colorScalar stripes sI cD info < 2 ^ 31) :
    mapColor (paletteOf scheme) stripes sI cD info =
      specColorMap (paletteOf scheme) (colorScalar stripes sI cD info) ∧
    (∀ k : ℕ, colorScalar stripes sI cD info = (k : ℚ) →
      mapColor (paletteOf scheme) stripes sI cD info =
        (paletteOf scheme).getD (k % (paletteOf scheme).length) ⟨0, 0, 0⟩) := by
  set t := colorScalar stripes sI cD info with ht
  have htr : ratTrunc t = ⌊t⌋ := by rw [ratTrunc, if_neg (not_lt.mpr h0)]
  have hfl0 : 0 ≤ ⌊t⌋ := Int.le_floor.mpr (by exact_mod_cast h0)
  have h31 : ((2 : ℚ) ^ 31) = (((2147483648 : ℤ) : ℚ)) := by norm_num
  have hfl31 : ⌊t⌋ < 2147483648 := Int.floor_lt.mpr (h31 ▸ hlt)
  have hfllt : ⌊t⌋ < 2 ^ 64 := by
    have h64 : (2 : ℤ) ^ 64 = 18446744073709551616 := by norm_num
    rw [h64]; omega
  have hidx : ((ratTrunc t) % ((2 : ℤ) ^ 64)).toNat % (paletteOf scheme).length
      = ((⌊t⌋ : ℤ) % (((paletteOf scheme).length : ℕ) : ℤ)).toNat := by
    rw [htr, Int.emod_eq_of_lt hfl0 hfllt]
    obtain ⟨n, hn⟩ : ∃ n : ℕ, ⌊t⌋ = (n : ℤ) := ⟨⌊t⌋.toNat, by omega⟩
    rw [hn, Int.toNat_natCast, ← Int.natCast_mod, Int.toNat_natCast]
  constructor
  · rw [mapColor, if_neg hni, ← ht, specColorMap]
    dsimp only []
    rw [hidx]
  · intro k hk
    have hflk : (⌊t⌋ : ℤ) = (k : ℤ) := by
      rw [hk]; exact Int.floor_natCast k
    rw [mapColor, if_neg hni, ← ht]
    dsimp only []
    rw [hidx, hflk]
    have hidx2 : (((k : ℕ) : ℤ) % (((paletteOf scheme).length : ℕ) : ℤ)).toNat
        = k % (paletteOf scheme).length := by
      rw [← Int.natCast_mod, Int.toNat_natCast]
    rw [hidx2]
    have hfr : t - ((⌊t⌋ : ℤ) : ℚ) = 0 := by
      rw [hflk, hk]; push_cast; ring
    rw [hflk] at hfr
    rw [hfr]
    have hch := paletteOf_channels scheme (k % (paletteOf scheme).length)
      (Nat.mod_lt _ (paletteOf_length_pos scheme))
    exact interpolateColors_zero _ _ hch.1 hch.2.1 hch.2.2

set_option maxRecDepth 8000 in
/-- Counterexample to C4 as stated (the negative-`t` clause): for the
classic palette and scalar `t = -3` (smooth mode, `smoothIteration = -3`,
`colorDensity = 1`), the code's color differs from the spec's floor-based
formula: the code indexes entry `(2^64 - 3) mod 15 = 13`, the spec entry
`(-3) mod 15 = 12`. -/
theorem mapColor_negative_scalar_counterexample :
    mapColor (paletteOf 0) false 0 1 ⟨1, -3, 0⟩ ≠
      specColorMap (paletteOf 0) (colorScalar false 0 1 ⟨1, -3, 0⟩) := by
  decide

/-- Witness for the amended C4 at the integer scalar `t = 2`. -/
theorem mapColor_matches_spec_nonneg_witness :
    (⟨1, 2, 0⟩ : ReturnInfo).iteration ≠ -1 ∧
    0 ≤ colorScalar false 0 1 ⟨1, 2, 0⟩ ∧
    colorScalar false 0 1 ⟨1, 2, 0⟩ < 2 ^ 31 ∧
    mapColor (paletteOf 0) false 0 1 ⟨1, 2, 0⟩ =
      specColorMap (paletteOf 0) (colorScalar false 0 1 ⟨1, 2, 0⟩) :=
  ⟨by decide, by decide, by decide,
   (mapColor_matches_spec_nonneg 0 false 0 1 ⟨1, 2, 0⟩ (by decide) (by decide)
     (by decide)).1⟩

/-- Raising `10 ^ (n / 100)` and a positive bound to the 100th power. -/
lemma ten_rpow_div_le_iff (n : ℕ) (B : ℝ) (hB : 0 < B) :
    (10 : ℝ) ^ ((n : ℝ) / 100) ≤ B ↔ (10 : ℝ) ^ n ≤ B ^ (100 : ℕ) := by
  have h1 : ((10 : ℝ) ^ ((n : ℝ) / 100)) ^ (100 : ℕ) = (10 : ℝ) ^ n := by
    rw [← Real.rpow_natCast ((10 : ℝ) ^ ((n : ℝ) / 100)) 100,
      ← Real.rpow_mul (by norm_num : (0 : ℝ) ≤ 10)]
    have h2 : (n : ℝ) / 100 * ((100 : ℕ) : ℝ) = (n : ℝ) := by push_cast; ring
    rw [h2, Real.rpow_natCast]
  rw [← h1]
  exact (@pow_le_pow_iff_left₀ ℝ _ _ _ _ _ _ _ _
    (Real.rpow_nonneg (by norm_num) _) hB.le (by norm_num)).symm

/-- Strict version of `ten_rpow_div_le_iff`. -/
lemma lt_ten_rpow_div_iff (n : ℕ) (B : ℝ) (hB : 0 < B) :
    B < (10 : ℝ) ^ ((n : ℝ) / 100) ↔ B ^ (100 : ℕ) < (10 : ℝ) ^ n := by
  have h1 : ((10 : ℝ) ^ ((n : ℝ) / 100)) ^ (100 : ℕ) = (10 : ℝ) ^ n := by
    rw [← Real.rpow_natCast ((10 : ℝ) ^ ((n : ℝ) / 100)) 100,
      ← Real.rpow_mul (by norm_num : (0 : ℝ) ≤ 10)]
    have h2 : (n : ℝ) / 100 * ((100 : ℕ) : ℝ) = (n : ℝ) := by push_cast; ring
    rw [h2, Real.rpow_natCast]
  rw [← h1]
  exact (@pow_lt_pow_iff_left₀ ℝ _ _ _ _ _ _ _ _
    hB.le (Real.rpow_nonneg (by norm_num) _) (by norm_num)).symm

/-- Bracketing `x ^ 100` between integer powers of 10 determines the floor
of `100 * log10 x`. -/
lemma hundred_logb_floor (x : ℝ) (n : ℕ) (hx : 1 ≤ x)
    (hlow : (10 : ℝ) ^ n ≤ x ^ (100 : ℕ))
    (hhigh : x ^ (100 : ℕ) < (10 : ℝ) ^ (n + 1)) :
    ⌊(100 : ℝ) * Real.logb 10 x⌋ = (n : ℤ) := by
  have hx0 : (0 : ℝ) < x := by linarith
  have h1 : (n : ℝ) / 100 ≤ Real.logb 10 x :=
    (Real.le_logb_iff_rpow_le (by norm_num) hx0).mpr
      ((ten_rpow_div_le_iff n x hx0).mpr hlow)
  have h2 : Real.logb 10 x < ((n + 1 : ℕ) : ℝ) / 100 :=
    (Real.logb_lt_iff_lt_rpow (by norm_num) hx0).mpr
      ((lt_ten_rpow_div_iff (n + 1) x hx0).mpr hhigh)
  rw [Int.floor_eq_iff]
  push_cast
  push_cast at h1 h2
  constructor <;> linarith

/-- `⌊100 · log10 2⌋ = 30`, from `10^30 ≤ 2^100 < 10^31`. -/
lemma floor_hundred_logb_two : ⌊(100 : ℝ) * Real.logb 10 2⌋ = 30 :=
  hundred_logb_floor 2 30 (by norm_num) (by norm_num) (by norm_num)

/-- `⌊100 · log10 30000000001⌋ = 1047`, from
`10^1047 ≤ 30000000001^100 < 10^1048`. -/
lemma floor_hundred_logb_zoom : ⌊(100 : ℝ) * Real.logb 10 30000000001⌋ = 1047 :=
  hundred_logb_floor 30000000001 1047 (by norm_num) (by norm_num) (by norm_num)

/-- For a positive viewport size the truncation in `adjustIterations` is a
floor (its argument is nonnegative), giving the min/max normal form. -/
lemma adjustIterations_eq (size : ℚ) (h : 0 < size) (old : ℤ) :
    adjustIterations true size old =
      max 100 (min 10000 ⌊(100 : ℝ) * Real.logb 10 (1 + 3.0 / (size : ℝ))⌋) := by
  rw [adjustIterations, if_pos rfl]
  dsimp only []
  have hsr : (0 : ℝ) < (size : ℝ) := by exact_mod_cast h
  have hzoom : (0 : ℝ) < 3.0 / (size : ℝ) := by positivity
  have hlogpos : (0 : ℝ) < Real.logb 10 (1 + 3.0 / (size : ℝ)) :=
    Real.logb_pos (by norm_num) (by linarith)
  rw [if_neg (not_lt.mpr (mul_nonneg (by norm_num) hlogpos.le))]

/-- Claim C3 (amended): with auto-iteration mode on and a positive viewport
size, `adjustIterations` computes
`clamp(floor(100 * log10(1 + 3.0/size)), 100, 10000)`; `size = 3` yields
`maxIterations = 100` (computed value 30 clamped up), but `size = 1e-10`
yields `maxIterations = 1047` (the computed value `⌊100·log10(1+3e10)⌋`,
inside the clamp range), not the spec's claimed ceiling of 10000. -/
theorem adjustIterations_spec (size : ℚ) (h : 0 < size) (old : ℤ) :
    adjustIterations true size old = specAdaptiveIterations size ∧
    (size = 3 → adjustIterations true size old = 100) ∧
    (size = 1 / 10 ^ 10 → adjustIterations true size old = 1047) := by
  refine ⟨?_, ?_, ?_⟩
  · rw [adjustIterations_eq size h old, specAdaptiveIterations, min_comm]
  · intro h3
    subst h3
    rw [adjustIterations_eq _ h old]
    have h2 : (1 + 3.0 / (((3 : ℚ)) : ℝ)) = 2 := by push_cast; norm_num
    rw [h2, floor_hundred_logb_two]
    decide
  · intro h10
    subst h10
    rw [adjustIterations_eq _ h old]
    have h2 : (1 + 3.0 / (((1 / 10 ^ 10 : ℚ)) : ℝ)) = 30000000001 := by
      push_cast
      norm_num
    rw [h2, floor_hundred_logb_zoom]
    decide

/-- Counterexample to C3 as stated: at `viewportSize = 1e-10` the
auto-iteration policy computes 1047, not the claimed 10000. -/
theorem adjustIterations_1e10_counterexample :
    adjustIterations true (1 / 10 ^ 10) 0 = 1047 ∧ (1047 : ℤ) ≠ 10000 := by
  constructor
  · rw [adjustIterations_eq _ (by norm_num) 0]
    have h2 : (1 + 3.0 / (((1 / 10 ^ 10 : ℚ)) : ℝ)) = 30000000001 := by
      push_cast
      norm_num
    rw [h2, floor_hundred_logb_zoom]
    decide
  · decide

/-- Witness for the amended C3 at `size = 3`. -/
theorem adjustIterations_spec_witness :
    (0 : ℚ) < 3 ∧ adjustIterations true 3 0 = 100 :=
  ⟨by decide, (adjustIterations_spec 3 (by decide) 0).2.1 rfl⟩

/-- With `downscale = 1` the inner flood-fill loop writes exactly the one
pixel at `(y, x)`. -/
lemma fillRow_one (c : Color) (width y x : ℕ) (hx : x < width) (buf : Buffer) :
    fillRow c width 1 y x 0 buf = writePixel buf ((y * width + x) * 4) c := by
  rw [fillRow, dif_pos (⟨by norm_num, by simpa using hx⟩ : 0 < 1 ∧ x + 0 < width)]
  rw [fillRow, dif_neg (by simp : ¬((1 : ℕ) < 1 ∧ x + 1 < width))]
  norm_num

/-- With `downscale = 1` the block flood fill degenerates to the single
pixel write of the region renderer. -/
lemma fillBlock_one (c : Color) (width height y x : ℕ) (hy : y < height)
    (hx : x < width) (buf : Buffer) :
    fillBlock c width height 1 y x 0 buf = writePixel buf ((y * width + x) * 4) c := by
  rw [fillBlock, dif_pos (⟨by norm_num, by simpa using hy⟩ : 0 < 1 ∧ y + 0 < height)]
  rw [fillBlock, dif_neg (by simp : ¬((1 : ℕ) < 1 ∧ y + 1 < height))]
  rw [fillRow_one c width (y + 0) x hx]
  norm_num

/-- With `downscale = 1` the preview's column loop coincides with the
region renderer's column loop. -/
lemma previewRow_one (T : TranscOps) (state : RenderState)
    (width height y : ℕ) (hy : y < height) :
    ∀ (n x : ℕ), width - x ≤ n → ∀ buf,
      previewRow T state width height 1 y x buf =
        renderRow T state width y x buf := by
  intro n
  induction n with
  | zero =>
    intro x hx buf
    rw [previewRow, renderRow]
    rw [dif_neg (show ¬ x < width by omega), dif_neg (show ¬ x < width by omega)]
  | succ n ih =>
    intro x hx buf
    by_cases h : x < width
    · rw [previewRow, renderRow, dif_pos h, dif_pos h]
      rw [dif_neg (by norm_num : ¬(1 = 0))]
      cases hcp : computePixelColor T state width y x with
      | none => rfl
      | some c =>
        dsimp only []
        rw [fillBlock_one c width height y x hy h]
        exact ih (x + 1) (by omega) _
    · rw [previewRow, renderRow, dif_neg h, dif_neg h]

/-- With `downscale = 1` the preview's row loop coincides with the region
renderer's row loop over `[0, height)`. -/
lemma previewLoop_one (T : TranscOps) (state : RenderState)
    (width height : ℕ) :
    ∀ (n y : ℕ), height - y ≤ n → ∀ buf,
      previewLoop T state width height 1 y buf =
        regionLoop T state width height y buf := by
  intro n
  induction n with
  | zero =>
    intro y hy buf
    rw [previewLoop, regionLoop]
    rw [dif_neg (show ¬ y < height by omega), dif_neg (show ¬ y < height by omega)]
  | succ n ih =>
    intro y hy buf
    by_cases h : y < height
    · rw [previewLoop, regionLoop, dif_pos h, dif_pos h]
      rw [dif_neg (by norm_num : ¬(1 = 0))]
      rw [previewRow_one T state width height y h width 0 (by omega) buf]
      cases hr : renderRow T state width y 0 buf with
      | none => rfl
      | some buf2 =>
        show previewLoop T state width height 1 (y + 1) buf2 =
          regionLoop T state width height (y + 1) buf2
        exact ih (y + 1) (by omega) buf2
    · rw [previewLoop, regionLoop, dif_neg h, dif_neg h]

/-- Claim C5: `renderPreview` invoked with `downscale = 1` writes a pixel
buffer byte-identical to `renderFractalRegion` over the full row range
`[0, height)` with the same viewport, width and height. -/
theorem renderPreview_one_eq_region (T : TranscOps) (state : RenderState)
    (width height : ℕ) (buf : Buffer) :
    renderPreview T state width height 1 buf =
      renderFractalRegion T state 0 height width height buf := by
  rw [renderPreview, renderFractalRegion]
  exact previewLoop_one T state width height height 0 (by omega) buf

/-- Splitting the row loop at an intermediate row: rendering `[a, b)` and
then `[b, c)` writes the same bytes as rendering `[a, c)`. -/
lemma regionLoop_append (T : TranscOps) (state : RenderState)
    (width c : ℕ) :
    ∀ (n a b : ℕ), b - a ≤ n → a ≤ b → b ≤ c → ∀ buf,
      (regionLoop T state width b a buf).bind (regionLoop T state width c b) =
        regionLoop T state width c a buf := by
  intro n
  induction n with
  | zero =>
    intro a b hn hab hbc buf
    have hEq : a = b := by omega
    subst hEq
    conv_lhs => rw [regionLoop]
    rw [dif_neg (show ¬ a < a by omega)]
    rfl
  | succ n ih =>
    intro a b hn hab hbc buf
    by_cases h : a < b
    · have hac : a < c := by omega
      conv_lhs => rw [regionLoop]
      conv_rhs => rw [regionLoop]
      rw [dif_pos h, dif_pos hac]
      cases hr : renderRow T state width a 0 buf with
      | none => rfl
      | some buf2 =>
        show (regionLoop T state width b (a + 1) buf2).bind
            (regionLoop T state width c b) =
          regionLoop T state width c (a + 1) buf2
        exact ih (a + 1) b (by omega) (by omega) hbc buf2
    · have hEq : a = b := by omega
      subst hEq
      conv_lhs => rw [regionLoop]
      rw [dif_neg (show ¬ a < a by omega)]
      rfl

/-- The band loop starting at band `i` (with `i + f = numThreads`) renders
exactly the rows `[i * linesPerThread, height)`. -/
lemma bandsLoop_eq_region (T : TranscOps) (state : RenderState)
    (width height N : ℕ) :
    ∀ (f i : ℕ), 1 ≤ f → i + f = N → ∀ buf,
      bandsLoop T state width height N (height / N) i buf =
        regionLoop T state width height (i * (height / N)) buf := by
  intro f
  induction f with
  | zero =>
    intro i h1 h2 buf
    omega
  | succ f ih =>
    intro i h1 h2 buf
    rw [bandsLoop, dif_pos (show i < N by omega)]
    rw [renderFractalRegion]
    by_cases hlast : i = N - 1
    · rw [if_pos hlast]
      cases hx : regionLoop T state width height (i * (height / N)) buf with
      | none => rfl
      | some b2 =>
        show bandsLoop T state width height N (height / N) (i + 1) b2 = some b2
        rw [bandsLoop, dif_neg (show ¬ i + 1 < N by omega)]
    · rw [if_neg hlast]
      have hb1 : (i + 1) * (height / N) ≤ (N - 1) * (height / N) :=
        Nat.mul_le_mul_right _ (by omega)
      have hb2 : (N - 1) * (height / N) ≤ N * (height / N) :=
        Nat.mul_le_mul_right _ (by omega)
      have hb3 : N * (height / N) ≤ height := by
        rw [mul_comm]
        exact Nat.div_mul_le_self height N
      have hfun : bandsLoop T state width height N (height / N) (i + 1) =
          regionLoop T state width height ((i + 1) * (height / N)) := by
        funext b2
        exact ih (i + 1) (by omega) (by omega) b2
      rw [hfun]
      exact regionLoop_append T state width height
        ((i + 1) * (height / N) - i * (height / N))
        (i * (height / N)) ((i + 1) * (height / N)) le_rfl
        (Nat.mul_le_mul_right _ (by omega))
        (le_trans hb1 (le_trans hb2 hb3)) buf

/-- Claim C1: for every viewport state, width and height, and every band
count `N ≥ 1`, rendering `N` contiguous bands of `height / N` rows each
(last band absorbing the remainder) via `renderFractalRegion` — the band
scheme of `renderFractal`, executed over the disjoint row ranges — writes
exactly the same RGBA bytes as rendering the whole range `[0, height)` as a
single band. -/
theorem renderFractal_band_split (T : TranscOps) (state : RenderState)
    (width height N : ℕ) (buf : Buffer) (hN : 1 ≤ N) :
    renderFractal T state width height N false buf =
      renderFractalRegion T state 0 height width height buf := by
  rw [renderFractal, if_neg (by simp), renderFractalRegion]
  simpa using bandsLoop_eq_region T state width height N N 0 hN (by omega) buf

/-- An all-zero pixel buffer, used to instantiate the band-split theorem. -/
def emptyBuffer : Buffer := fun _ => 0

/-- Witness for C1 with two bands on a 1-by-1 buffer and the default
render state. -/
theorem renderFractal_band_split_witness :
    1 ≤ 2 ∧
    renderFractal Tzero {} 1 1 2 false emptyBuffer =
      renderFractalRegion Tzero {} 0 1 1 1 emptyBuffer :=
  ⟨by decide, renderFractal_band_split Tzero {} 1 1 2 emptyBuffer (by decide)⟩

end FractalExplorer
